import Mathlib

/-!
Verification of the Git MCP client in
src/hexaeight_mcp_client/git_mcp_tool.py (class GitMCPTool).

The embedding models the JSON dictionaries the client builds and inspects,
the retry loop of _send_encrypted_git_operation as a step function on an
attempt state plus an event trace (encryption calls, HTTP POSTs, sleeps),
the session-probing logic of _encrypt_git_operation over an abstract agent
object, and the state updates of the public methods that the claims touch
(commit_files, switch_branch).  External effects (the encryption session,
the HTTP server) are oracles supplied as parameters; everything the Python
code itself computes is translated directly from the source.
-/

namespace HexaEightGit

/-- JSON-like values as produced by json.loads and consumed by json.dumps in
git_mcp_tool.py.  The numbers appearing in the payloads this client builds or
inspects are non-negative integers, so a Nat constructor suffices. -/
inductive JVal where
  | str (s : String)
  | bool (b : Bool)
  | nat (n : Nat)
  | arr (xs : List JVal)
  | obj (fields : List (String × JVal))

/-- A Python dict with string keys, as an association list.  Lookup takes the
first binding, and jupdate prepends, so dict.update semantics are preserved. -/
abbrev JDict := List (String × JVal)

/-- Python d.get(key): the first binding for key, None when absent. -/
def jget : JDict → String → Option JVal
  | [], _ => none
  | (k, v) :: rest, key => if k == key then some v else jget rest key

/-- Python base.update(upd): bindings of upd shadow those of base under jget. -/
def jupdate (base upd : JDict) : JDict := upd ++ base

/-- Python truthiness of a JSON value. -/
def pyTruthy : JVal → Bool
  | .str s => s != ""
  | .bool b => b
  | .nat n => n != 0
  | .arr xs => !xs.isEmpty
  | .obj kvs => !kvs.isEmpty

/-- Python (v == True) for a JSON value: the boolean True itself, or the
integer 1, since bool is an int subclass in Python. -/
def pyEqTrue : JVal → Bool
  | .bool b => b
  | .nat n => n == 1
  | _ => false

/-- First truthy value bound to key, None otherwise (Python or-chaining on
d.get(key)). -/
def jgetTruthy (result : JDict) (key : String) : Option JVal :=
  match jget result key with
  | some v => if pyTruthy v then some v else none
  | none => none

/-- GitMCPTool._check_success (git_mcp_tool.py line 900):
result.get("isSuccessful") == True. -/
def check_success (result : JDict) : Bool :=
  match jget result "isSuccessful" with
  | some v => pyEqTrue v
  | none => false

/-- GitMCPTool._get_error_message (line 907):
result.get("errorMessage") or result.get("message") or "Unknown error". -/
def get_error_message (result : JDict) : JVal :=
  match jgetTruthy result "errorMessage" with
  | some v => v
  | none =>
    match jgetTruthy result "message" with
    | some v => v
    | none => .str "Unknown error"

/-- Escape of one character inside a JSON string literal (the payloads built
by the client contain no control characters, so backslash and quote are the
relevant cases of json.dumps escaping). -/
def jsonEscapeChar (c : Char) : String :=
  if c == '\\' then "\\\\" else if c == '"' then "\\\"" else String.singleton c

/-- Escape of a string body for a JSON string literal. -/
def jsonEscape (s : String) : String := String.join (s.data.map jsonEscapeChar)

mutual

/-- json.dumps with Python's default separators. -/
def JVal.serialize : JVal → String
  | .str s => "\"" ++ jsonEscape s ++ "\""
  | .bool b => if b then "true" else "false"
  | .nat n => toString n
  | .arr xs => "[" ++ serializeItems xs ++ "]"
  | .obj kvs => "\x7b" ++ serializeFields kvs ++ "\x7d"

/-- Comma-separated serialization of array items. -/
def serializeItems : List JVal → String
  | [] => ""
  | [x] => JVal.serialize x
  | x :: y :: rest => JVal.serialize x ++ ", " ++ serializeItems (y :: rest)

/-- Comma-separated serialization of object fields. -/
def serializeFields : List (String × JVal) → String
  | [] => ""
  | [(k, v)] => "\"" ++ jsonEscape k ++ "\": " ++ JVal.serialize v
  | (k, v) :: kv :: rest =>
    "\"" ++ jsonEscape k ++ "\": " ++ JVal.serialize v ++ ", " ++ serializeFields (kv :: rest)

end

/-- Byte length of the UTF-8 encoding of a string: len(s.encode('utf-8')). -/
def utf8Length (s : String) : Nat := (s.data.map Char.utf8Size).sum

/-- Operations the retry loop is willing to retry
(_send_encrypted_git_operation, line 922). -/
def retryable_operations : List String :=
  ["commit", "create", "branch", "checkout", "read", "list"]

/-- Server error codes the retry loop treats as transient (line 923). -/
def retryable_error_codes : List String :=
  ["DECRYPTION_FAILED", "CONNECTION_FAILED", "TIMEOUT", "INTERNAL_ERROR", "REPOSITORY_LOCKED"]

/-- Server error codes the retry loop never retries (line 930). -/
def non_retryable_error_codes : List String :=
  ["FILE_NOT_FOUND", "REPOSITORY_NOT_FOUND", "ACCESS_DENIED", "INVALID_BRANCH", "CONFLICT"]

/-- operation.get('Operation', 'unknown') (line 919).  A non-string value
behaves exactly like 'unknown' with respect to every membership test the
client performs on the operation type, which is its only use. -/
def opTypeOf (op : JDict) : String :=
  match jget op "Operation" with
  | some (.str s) => s
  | _ => "unknown"

/-- result.get("errorCode", "UNKNOWN") (lines 1020 and 1057).  A non-string
value behaves exactly like 'UNKNOWN' with respect to every membership and
equality test performed on the error code, which is its only use. -/
def errCodeOf (result : JDict) : String :=
  match jget result "errorCode" with
  | some (.str s) => s
  | _ => "UNKNOWN"

/-- Retry budget by operation type (lines 938-944): 3 attempts for read and
list, 10 for the other retryable operations, 1 for everything else. -/
def max_retries_for (opType : String) : Nat :=
  if ["read", "list"].contains opType then 3
  else if retryable_operations.contains opType then 10
  else 1

/-- Backoff before a retry that follows the attempt with 0-based index
attempt: min(base_delay * (2 ** attempt), max_delay) with base_delay 1.0 and
max_delay 60.0 (lines 945-946, 1039, 1093, 1107, 1119). -/
def backoff_delay (attempt : Nat) : ℚ := min ((1 : ℚ) * 2 ^ attempt) 60

/-- Observable actions of one call to _send_encrypted_git_operation, in
order: the start of a loop iteration, a call to _encrypt_git_operation with
its outcome, the sleep between encryption attempts, an HTTP POST with its
JSON body, and the exponential-backoff sleep before a retry. -/
inductive Event where
  | attemptStart (attempt : Nat)
  | encCall (idx : Nat) (result : Option String)
  | encSleep (seconds : ℚ)
  | post (idx : Nat) (url : String) (body : List (String × String))
  | backoffSleep (seconds : ℚ)
  deriving DecidableEq

/-- Body of an HTTP response: either text that fails json.loads, or the
parsed JSON object (an empty response text parses to the empty dict). -/
inductive RespBody where
  | invalid (raw : String)
  | json (d : JDict)

/-- Outcome of one HTTP POST: a network-level exception, or a response with
a status code and a body. -/
inductive HttpOutcome where
  | exn (msg : String)
  | resp (status : Nat) (body : RespBody)

/-- Mutable locals of the retry loop of _send_encrypted_git_operation,
together with counters indexing the external oracles: attempt is the 0-based
loop index, encCalls the number of calls to _encrypt_git_operation made so
far, posts the number of HTTP POSTs made so far. -/
structure AttemptState where
  attempt : Nat
  encCalls : Nat
  posts : Nat
  lastDecryptionFailed : Bool
  consecutiveFailures : Nat

/-- Environment of _send_encrypted_git_operation: the git server URL, the
retry budget, and oracles giving the outcome of the k-th call to
_encrypt_git_operation and of the k-th HTTP POST.  An encryption outcome of
none models a raised exception. -/
structure SendConfig where
  gitServerUrl : String
  maxRetries : Nat
  enc : Nat → Option String
  http : Nat → HttpOutcome

/-- Result of one loop iteration: a final return value, or a retry carrying
the backoff delay and the updated state. -/
inductive StepOut where
  | done (result : JDict) (events : List Event)
  | retry (delay : ℚ) (next : AttemptState) (events : List Event)

/-- Events recorded by a loop iteration. -/
def StepOut.events : StepOut → List Event
  | .done _ evs => evs
  | .retry _ _ evs => evs

/-- The dict returned when the payload cannot be encrypted (line 982). -/
def encryption_failed_result : JDict :=
  [("isSuccessful", .bool false),
   ("errorMessage", .str "Failed to encrypt git operation"),
   ("errorCode", .str "ENCRYPTION_FAILED")]

/-- The dict returned if the loop were to fall through (line 1127); with the
actual budgets this line is unreachable because the last iteration always
returns. -/
def max_retries_exceeded_result : JDict :=
  [("isSuccessful", .bool false), ("errorMessage", .str "Max retries exceeded")]

/-- should_reencrypt (lines 958-962): first attempt, or the previous attempt
failed with DECRYPTION_FAILED, or the operation type is retryable. -/
def should_reencrypt (op : JDict) (st : AttemptState) : Bool :=
  st.attempt == 0 || st.lastDecryptionFailed || retryable_operations.contains (opTypeOf op)

/-- Inner encryption loop (lines 968-977): up to remaining calls to
_encrypt_git_operation starting at oracle index idx, with encAttempt the
0-based inner loop index.  A raised exception (none) sleeps
0.5 * (encAttempt + 1) seconds unless it was the last inner attempt; an
empty result does not break and is falsy at the end, which is equivalent to
returning none.  Returns the ciphertext, the next oracle index, and the
events. -/
def encLoopAux (enc : Nat → Option String) : Nat → Nat → Nat → Option String × Nat × List Event
  | 0, idx, _ => (none, idx, [])
  | remaining + 1, idx, encAttempt =>
    match enc idx with
    | some s =>
      if s == "" then
        let r := encLoopAux enc remaining (idx + 1) (encAttempt + 1)
        (r.1, r.2.1, Event.encCall idx (some s) :: r.2.2)
      else (some s, idx + 1, [Event.encCall idx (some s)])
    | none =>
      let sleeps : List Event :=
        if encAttempt < 2 then [Event.encSleep (((encAttempt : ℚ) + 1) / 2)] else []
      let r := encLoopAux enc remaining (idx + 1) (encAttempt + 1)
      (r.1, r.2.1, Event.encCall idx none :: (sleeps ++ r.2.2))

/-- The encryption phase of one iteration (lines 955-977): three inner
attempts when should_reencrypt holds, otherwise encrypted_operation stays
None. -/
def runEncryption (cfg : SendConfig) (op : JDict) (st : AttemptState) : Option String × Nat × List Event :=
  if should_reencrypt op st then encLoopAux cfg.enc 3 st.encCalls 0
  else (none, st.encCalls, [])

/-- Number of oracle calls consumed after the encryption phase of one
iteration. -/
def encCallsAfter (cfg : SendConfig) (op : JDict) (st : AttemptState) : Nat :=
  (runEncryption cfg op st).2.1

/-- The error dict built for a non-200 response (lines 1007-1017): the base
error fields, updated with whatever JSON the body parses to.  The raw
response text inside errorMessage is elided; no claim inspects it. -/
def non200_result (status : Nat) (body : RespBody) : JDict :=
  match body with
  | .json d =>
    jupdate [("isSuccessful", .bool false),
             ("errorMessage", .str ("HTTP " ++ toString status)),
             ("status_code", .nat status)] d
  | .invalid _ =>
    [("isSuccessful", .bool false),
     ("errorMessage", .str ("HTTP " ++ toString status)),
     ("status_code", .nat status)]

/-- Handling of the HTTP outcome of one iteration (lines 996-1124), after a
successful encryption: k is the oracle index after encryption, evs1 the
events so far.  last_decryption_failed was reset to False after encryption
(line 985), so the retry states rebuild it from the current error code
alone. -/
def handle_http (cfg : SendConfig) (op : JDict) (st : AttemptState)
    (k : Nat) (evs1 : List Event) : HttpOutcome → StepOut
  | .exn msg =>
    if retryable_operations.contains (opTypeOf op) && decide (st.attempt + 1 < cfg.maxRetries) then
      .retry (backoff_delay st.attempt)
        ⟨st.attempt + 1, k, st.posts + 1, false, st.consecutiveFailures⟩ evs1
    else
      .done [("isSuccessful", .bool false), ("errorMessage", .str msg)] evs1
  | .resp status body =>
    if status != 200 then
      if retryable_operations.contains (opTypeOf op)
          && retryable_error_codes.contains (errCodeOf (non200_result status body))
          && decide (st.attempt + 1 < cfg.maxRetries) then
        .retry (backoff_delay st.attempt)
          ⟨st.attempt + 1, k, st.posts + 1,
           errCodeOf (non200_result status body) == "DECRYPTION_FAILED",
           if errCodeOf (non200_result status body) == "DECRYPTION_FAILED" then
             st.consecutiveFailures + 1
           else st.consecutiveFailures⟩ evs1
      else .done (non200_result status body) evs1
    else
      match body with
      | .invalid raw =>
        if retryable_operations.contains (opTypeOf op) && decide (st.attempt + 1 < cfg.maxRetries) then
          .retry (backoff_delay st.attempt)
            ⟨st.attempt + 1, k, st.posts + 1, false, st.consecutiveFailures⟩ evs1
        else
          .done [("isSuccessful", .bool false),
                 ("errorMessage", .str "Invalid JSON response"),
                 ("raw_response", .str raw)] evs1
      | .json result =>
        if pyTruthy ((jget result "isSuccessful").getD (.bool true)) then
          .done result evs1
        else
          if retryable_operations.contains (opTypeOf op)
              && retryable_error_codes.contains (errCodeOf result)
              && !(non_retryable_error_codes.contains (errCodeOf result))
              && decide (st.attempt + 1 < cfg.maxRetries) then
            .retry (backoff_delay st.attempt)
              ⟨st.attempt + 1, k, st.posts + 1, errCodeOf result == "DECRYPTION_FAILED",
               if errCodeOf result == "DECRYPTION_FAILED" then st.consecutiveFailures + 1
               else 0⟩ evs1
          else .done result evs1

/-- One iteration of the retry loop (lines 950-1124).  The class never sets
an agent_recreation_callback attribute, so the hasattr guard at line 1081 is
False and the callback branch is dead code. -/
def attemptStep (cfg : SendConfig) (op : JDict) (st : AttemptState) : StepOut :=
  let encOut := runEncryption cfg op st
  let evs0 := Event.attemptStart st.attempt :: encOut.2.2
  match encOut.1 with
  | none => .done encryption_failed_result evs0
  | some cipher =>
    handle_http cfg op st encOut.2.1
      (evs0 ++ [Event.post st.posts (cfg.gitServerUrl ++ "/api/operations") [("encryptedAuth", cipher)]])
      (cfg.http st.posts)

/-- The retry loop, by remaining fuel (the for loop over range(max_retries);
the fuel-0 return is line 1127). -/
def sendLoop (cfg : SendConfig) (op : JDict) : Nat → AttemptState → JDict × List Event
  | 0, _ => (max_retries_exceeded_result, [])
  | fuel + 1, st =>
    match attemptStep cfg op st with
    | .done r evs => (r, evs)
    | .retry d st' evs =>
      let rest := sendLoop cfg op fuel st'
      (rest.1, evs ++ Event.backoffSleep d :: rest.2)

/-- GitMCPTool._send_encrypted_git_operation (line 917), over the encryption
and HTTP oracles. -/
def send_encrypted_git_operation (gitServerUrl : String) (enc : Nat → Option String)
    (http : Nat → HttpOutcome) (operation : JDict) : JDict × List Event :=
  sendLoop ⟨gitServerUrl, max_retries_for (opTypeOf operation), enc, http⟩ operation
    (max_retries_for (opTypeOf operation)) ⟨0, 0, 0, false, 0⟩

/-- Outcome of one call to a session's EncryptTextMessageToDestination:
either it raises, or it returns a string. -/
inductive EncOutcome where
  | raises
  | returns (s : String)

/-- The five session-access patterns _encrypt_git_operation probes on the
external agent object (lines 1139-1211), in probe order.  A None field
covers every failing hasattr or falsy-attribute step of the corresponding
Python attribute chain. -/
structure Agent where
  hexaeightClrSession : Option (String → String → EncOutcome)
  clrSession : Option (String → String → EncOutcome)
  directSession : Option (String → String → EncOutcome)
  hexaeightSession : Option (String → String → EncOutcome)
  configSession : Option (String → String → EncOutcome)

/-- One probe of a candidate session: fails when there is no session, when a
required parameter is empty (the raised exception is caught), when the call
raises, or when it returns an empty string; succeeds on a non-empty result.
Methods 1 and 2 raise on an empty result and method 3 just falls through,
which yields the same outcome. -/
def trySessionEncrypt (s : Option (String → String → EncOutcome)) (msg dest : String) : Option String :=
  match s with
  | none => none
  | some f =>
    if dest == "" || msg == "" then none
    else
      match f msg dest with
      | .returns r => if r == "" then none else some r
      | .raises => none

/-- GitMCPTool._encrypt_git_operation (line 1129): serialize the operation
with json.dumps, then probe the five session patterns in order; raise when
none yields a non-empty ciphertext. -/
def encrypt_git_operation (agent : Agent) (gitServerAgentName : String)
    (operation : JDict) : Except String String :=
  let msg := JVal.serialize (.obj operation)
  match trySessionEncrypt agent.hexaeightClrSession msg gitServerAgentName with
  | some r => .ok r
  | none =>
  match trySessionEncrypt agent.clrSession msg gitServerAgentName with
  | some r => .ok r
  | none =>
  match trySessionEncrypt agent.directSession msg gitServerAgentName with
  | some r => .ok r
  | none =>
  match trySessionEncrypt agent.hexaeightSession msg gitServerAgentName with
  | some r => .ok r
  | none =>
  match trySessionEncrypt agent.configSession msg gitServerAgentName with
  | some r => .ok r
  | none => .error "No working encryption session found"

/-- The encryption oracle induced by an agent: every call to
_encrypt_git_operation runs on the same operation and destination. -/
def agentEncOracle (agent : Agent) (gitServerAgentName : String) (operation : JDict) :
    Nat → Option String :=
  fun _ =>
    match encrypt_git_operation agent gitServerAgentName operation with
    | .ok c => some c
    | .error _ => none

/-- _send_encrypted_git_operation with the encryption performed by the given
agent's sessions. -/
def send_with_agent (agent : Agent) (gitServerAgentName gitServerUrl : String)
    (http : Nat → HttpOutcome) (operation : JDict) : JDict × List Event :=
  send_encrypted_git_operation gitServerUrl (agentEncOracle agent gitServerAgentName operation)
    http operation

/-- A candidate session yields a usable ciphertext for this message and
destination: it exists and returns a non-empty string. -/
def session_usable (s : Option (String → String → EncOutcome)) (msg dest : String) : Bool :=
  match s with
  | none => false
  | some f =>
    match f msg dest with
    | .returns r => r != ""
    | .raises => false

/-- No session-access pattern of the agent yields a usable ciphertext for
this message and destination. -/
def no_usable_session (a : Agent) (msg dest : String) : Bool :=
  !(session_usable a.hexaeightClrSession msg dest) &&
  !(session_usable a.clrSession msg dest) &&
  !(session_usable a.directSession msg dest) &&
  !(session_usable a.hexaeightSession msg dest) &&
  !(session_usable a.configSession msg dest)

/-- Some candidate session of the agent returns out on this message and
destination. -/
def session_outputs (s : Option (String → String → EncOutcome)) (msg dest out : String) : Prop :=
  ∃ f, s = some f ∧ f msg dest = .returns out

/-- Some session-access pattern of the agent returns out on this message and
destination. -/
def agent_session_outputs (a : Agent) (msg dest out : String) : Prop :=
  session_outputs a.hexaeightClrSession msg dest out ∨
  session_outputs a.clrSession msg dest out ∨
  session_outputs a.directSession msg dest out ∨
  session_outputs a.hexaeightSession msg dest out ∨
  session_outputs a.configSession msg dest out

/-- The Author object with lowercase keys (commit, history, file-history,
diff, show, merge operations). -/
def author_lower (agent_name : String) : JVal :=
  .obj [("name", .str agent_name), ("email", .str (agent_name ++ "@hexaeight-agent.local"))]

/-- The Author object with uppercase keys (branch, checkout, revert
operations). -/
def author_upper (agent_name : String) : JVal :=
  .obj [("Name", .str agent_name), ("Email", .str (agent_name ++ "@hexaeight-agent.local"))]

/-- Operation dict built by create_repository (lines 159-163). -/
def create_repository_operation (repository_name : String) : JDict :=
  [("Operation", .str "create"), ("Repository", .str repository_name),
   ("CommitMessage", .str "Initial repository setup")]

/-- Operation dict built by commit_files (lines 290-300), over the prepared
path/content pairs. -/
def commit_operation (repo target_branch commit_message : String)
    (git_files : List (String × String)) (agent_name : String) : JDict :=
  [("Operation", .str "commit"), ("Repository", .str repo), ("Branch", .str target_branch),
   ("CommitMessage", .str commit_message),
   ("Files", .arr (git_files.map fun f => .obj [("path", .str f.1), ("content", .str f.2)])),
   ("Author", author_lower agent_name)]

/-- Operation dict built by create_branch (lines 360-370). -/
def create_branch_operation (repo branch_name source_branch agent_name : String) : JDict :=
  [("Operation", .str "branch"), ("Repository", .str repo), ("BranchName", .str branch_name),
   ("Branch", .str source_branch), ("CreateBranch", .bool true),
   ("Author", author_upper agent_name)]

/-- Operation dict built by switch_branch (lines 409-417). -/
def switch_branch_operation (repo branch_name agent_name : String) : JDict :=
  [("Operation", .str "checkout"), ("Repository", .str repo), ("BranchName", .str branch_name),
   ("Author", author_upper agent_name)]

/-- Operation dict built by read_file (lines 461-466). -/
def read_file_operation (repo target_branch file_path : String) : JDict :=
  [("Operation", .str "read"), ("Repository", .str repo), ("Branch", .str target_branch),
   ("FilePath", .str file_path)]

/-- Operation dict built by revert_to_commit (lines 530-539). -/
def revert_to_commit_operation (repo target_branch commit_sha agent_name : String) : JDict :=
  [("Operation", .str "revert"), ("Repository", .str repo), ("Branch", .str target_branch),
   ("TargetCommit", .str commit_sha), ("Author", author_upper agent_name)]

/-- Operation dict built by get_commit_history (lines 578-591); take is
clamped to 100 before being formatted into the pagination string. -/
def get_commit_history_operation (repo target_branch : String) (skip take : Nat)
    (agent_name : String) : JDict :=
  [("Operation", .str "history"), ("Repository", .str repo), ("Branch", .str target_branch),
   ("CommitMessage", .str (toString skip ++ "," ++ toString (min take 100))),
   ("Author", author_lower agent_name)]

/-- Operation dict built by get_file_history (lines 652-661). -/
def get_file_history_operation (repo file_path target_branch agent_name : String) : JDict :=
  [("Operation", .str "file-history"), ("Repository", .str repo), ("FilePath", .str file_path),
   ("Branch", .str target_branch), ("Author", author_lower agent_name)]

/-- Operation dict built by compare_commits (lines 723-732); target_commit
already defaults to "HEAD" in the caller. -/
def compare_commits_operation (repo from_commit target_commit agent_name : String) : JDict :=
  [("Operation", .str "diff"), ("Repository", .str repo), ("Branch", .str from_commit),
   ("TargetCommit", .str target_commit), ("Author", author_lower agent_name)]

/-- Operation dict built by show_commit_details (lines 792-800). -/
def show_commit_details_operation (repo target_commit agent_name : String) : JDict :=
  [("Operation", .str "show"), ("Repository", .str repo), ("TargetCommit", .str target_commit),
   ("Author", author_lower agent_name)]

/-- Operation dict built by merge_branch (lines 861-871). -/
def merge_branch_operation (repo target_branch source_branch merge_message agent_name : String) : JDict :=
  [("Operation", .str "merge"), ("Repository", .str repo), ("Branch", .str target_branch),
   ("BranchName", .str source_branch), ("CommitMessage", .str merge_message),
   ("Author", author_lower agent_name)]

/-- The operation types claimed by the glossary of the spec for the Git MCP
Tool. -/
def claimed_operation_types : List String :=
  ["create", "commit", "branch", "checkout", "merge", "diff"]

/-- The operation types actually sent by the public methods of GitMCPTool. -/
def public_operation_types : List String :=
  ["create", "commit", "branch", "checkout", "read", "revert", "history",
   "file-history", "diff", "show", "merge"]

/-- GitFileOperation dataclass (line 23). -/
structure GitFileOperation where
  path : String
  content : Option String
  operation : String
  is_binary : Bool
  file_size : Nat

/-- The inline small-file limit of commit_files: 50 * 1024 bytes (line 219). -/
def small_file_limit : Nat := 50 * 1024

/-- len(file_op.content.encode('utf-8')) if file_op.content else 0
(line 227); an empty string is falsy and also has byte length 0. -/
def content_size (f : GitFileOperation) : Nat :=
  match f.content with
  | some c => utf8Length c
  | none => 0

/-- The path/content pair commit_files sends for one file when no upload
session is in use (lines 272-287): contents whose byte size exceeds the
limit are sliced to the first small_file_limit characters. -/
def inline_git_file (f : GitFileOperation) : String × String :=
  if content_size f > small_file_limit then
    (f.path, match f.content with | some c => c.take small_file_limit | none => "")
  else
    (f.path, f.content.getD "")

/-- The files list commit_files sends inline when no upload session is in
use. -/
def prepare_inline_files (files : List GitFileOperation) : List (String × String) :=
  files.map inline_git_file

/-- GitCommitResult dataclass (line 32).  The message field is a JVal
because _get_error_message can return any truthy JSON value. -/
structure GitCommitResult where
  success : Bool
  commit_sha : Option String
  message : JVal
  error_code : Option String
  files_changed : Option (List String)

/-- d.get(key) when the caller stores it in an Optional[str] slot; the
server returns commitSha as a string. -/
def jgetStr (d : JDict) (key : String) : Option String :=
  match jget d key with
  | some (.str s) => some s
  | _ => none

/-- The GitCommitResult commit_files builds from the server response
(lines 310-334). -/
def commit_files_result (files : List GitFileOperation) (server_result : JDict) : GitCommitResult :=
  if check_success server_result then
    { success := true
      commit_sha := jgetStr server_result "commitSha"
      message := .str "Files committed successfully"
      error_code := none
      files_changed := some (files.map GitFileOperation.path) }
  else
    { success := false
      commit_sha := none
      message := get_error_message server_result
      error_code := none
      files_changed := none }

/-- The mutable fields of GitMCPTool that switch_branch can touch: besides
current_branch and session_history the only other repository-related field
is current_repository. -/
structure GitToolState where
  current_repository : String
  current_branch : String
  session_history : List JDict

/-- repo = repository or self.current_repository: an absent or empty
(falsy) argument falls back to the current repository. -/
def resolve_repo (st : GitToolState) (repository : Option String) : String :=
  match repository with
  | some r => if r == "" then st.current_repository else r
  | none => st.current_repository

/-- The session-history entry appended by switch_branch (lines 427-433);
the timestamp is an input because datetime.utcnow is external. -/
def switch_branch_history_entry (repo branch_name previous_branch timestamp : String) : JDict :=
  [("operation", .str "switch_branch"), ("repository", .str repo),
   ("branch_name", .str branch_name), ("previous_branch", .str previous_branch),
   ("timestamp", .str timestamp)]

/-- GitMCPTool.switch_branch (line 392) as a state transition.  The outcome
argument is what await _send_encrypted_git_operation produced: .ok with the
response dict, or .error when the attempt raised, in which case the except
branch returns the error dict of line 439 and the state is untouched. -/
def switch_branch (st : GitToolState) (branch_name : String) (repository : Option String)
    (timestamp : String) (outcome : Except String JDict) : GitToolState × JDict :=
  match outcome with
  | .error e => (st, [("success", .bool false), ("error", .str e)])
  | .ok result =>
    if check_success result then
      ({ st with
          current_branch := branch_name
          session_history := st.session_history ++
            [switch_branch_history_entry (resolve_repo st repository) branch_name
              st.current_branch timestamp] },
       result)
    else (st, result)

/-- Whether the outcome of the send counts as success for switch_branch. -/
def outcome_success : Except String JDict → Bool
  | .ok d => check_success d
  | .error _ => false

/-- Recognizer for attempt-start events. -/
def isAttemptStart : Event → Bool
  | .attemptStart _ => true
  | _ => false

/-- Recognizer for HTTP POST events. -/
def isPost : Event → Bool
  | .post _ _ _ => true
  | _ => false

/-- Recognizer for backoff-sleep events. -/
def isBackoffSleep : Event → Bool
  | .backoffSleep _ => true
  | _ => false

/-- Number of loop iterations recorded in a trace. -/
def numAttempts (evs : List Event) : Nat := evs.countP isAttemptStart

/-- Number of HTTP POSTs recorded in a trace. -/
def numPosts (evs : List Event) : Nat := evs.countP isPost

/-- The backoff delays recorded in a trace, in order. -/
def backoffs (evs : List Event) : List ℚ :=
  evs.filterMap fun e => match e with | .backoffSleep q => some q | _ => none

/-- The filterMap selector of backoffs. -/
def backoffSel (e : Event) : Option ℚ :=
  match e with | .backoffSleep q => some q | _ => none

theorem backoffs_eq_filterMap (evs : List Event) : backoffs evs = evs.filterMap backoffSel := rfl

theorem backoffSel_eq_none {e : Event} (h : isBackoffSleep e = false) : backoffSel e = none := by
  cases e <;> simp_all [isBackoffSleep, backoffSel]

@[simp] theorem isAttemptStart_start (n : Nat) : isAttemptStart (.attemptStart n) = true := rfl

@[simp] theorem isAttemptStart_encCall (i : Nat) (r : Option String) :
    isAttemptStart (.encCall i r) = false := rfl

@[simp] theorem isAttemptStart_post (i : Nat) (u : String) (b : List (String × String)) :
    isAttemptStart (.post i u b) = false := rfl

@[simp] theorem isAttemptStart_backoff (q : ℚ) : isAttemptStart (.backoffSleep q) = false := rfl

@[simp] theorem isPost_start (n : Nat) : isPost (.attemptStart n) = false := rfl

@[simp] theorem isPost_post (i : Nat) (u : String) (b : List (String × String)) :
    isPost (.post i u b) = true := rfl

@[simp] theorem isPost_backoff (q : ℚ) : isPost (.backoffSleep q) = false := rfl

@[simp] theorem backoffSel_start (n : Nat) : backoffSel (.attemptStart n) = none := rfl

@[simp] theorem backoffSel_post (i : Nat) (u : String) (b : List (String × String)) :
    backoffSel (.post i u b) = none := rfl

@[simp] theorem backoffSel_backoff (q : ℚ) : backoffSel (.backoffSleep q) = some q := rfl

/-- Events of the inner encryption loop are only encryption calls and
encryption sleeps. -/
theorem encLoopAux_mem (enc : Nat → Option String) :
    ∀ (n idx a : Nat) (e : Event), e ∈ (encLoopAux enc n idx a).2.2 →
      isAttemptStart e = false ∧ isPost e = false ∧ isBackoffSleep e = false := by
  intro n
  induction n with
  | zero => intro idx a e he; simp [encLoopAux] at he
  | succ m ih =>
    intro idx a e he
    rw [encLoopAux] at he
    rcases henc : enc idx with _ | s <;> simp only [henc] at he
    · simp only [List.mem_cons, List.mem_append] at he
      rcases he with rfl | he
      · exact ⟨rfl, rfl, rfl⟩
      rcases he with he | he
      · by_cases ha : a < 2
        · simp only [if_pos ha, List.mem_singleton] at he
          subst he; exact ⟨rfl, rfl, rfl⟩
        · simp only [if_neg ha, List.not_mem_nil] at he
      · exact ih _ _ _ he
    · by_cases hs : s == ""
      · simp only [if_pos hs, List.mem_cons] at he
        rcases he with rfl | he
        · exact ⟨rfl, rfl, rfl⟩
        · exact ih _ _ _ he
      · simp only [if_neg hs, List.mem_singleton] at he
        subst he; exact ⟨rfl, rfl, rfl⟩

/-- A ciphertext produced by the inner encryption loop is the value of an
oracle call whose index lies between the starting index and the final
index. -/
theorem encLoopAux_some (enc : Nat → Option String) :
    ∀ (n idx a : Nat) (c : String), (encLoopAux enc n idx a).1 = some c →
      ∃ j, idx ≤ j ∧ j < (encLoopAux enc n idx a).2.1 ∧ enc j = some c := by
  intro n
  induction n with
  | zero => intro idx a c h; simp [encLoopAux] at h
  | succ m ih =>
    intro idx a c h
    rw [encLoopAux] at h ⊢
    rcases henc : enc idx with _ | s <;> simp only [henc] at h ⊢
    · obtain ⟨j, hj1, hj2, hj3⟩ := ih _ _ _ h
      exact ⟨j, by omega, hj2, hj3⟩
    · by_cases hs : s == ""
      · simp only [if_pos hs] at h ⊢
        obtain ⟨j, hj1, hj2, hj3⟩ := ih _ _ _ h
        exact ⟨j, by omega, hj2, hj3⟩
      · simp only [if_neg hs, Option.some.injEq] at h ⊢
        subst h
        exact ⟨idx, Nat.le_refl idx, Nat.lt_succ_self idx, henc⟩

/-- The inner encryption loop never runs the oracle index backwards. -/
theorem encLoopAux_le (enc : Nat → Option String) :
    ∀ (n idx a : Nat), idx ≤ (encLoopAux enc n idx a).2.1 := by
  intro n
  induction n with
  | zero => intro idx a; simp [encLoopAux]
  | succ m ih =>
    intro idx a
    rw [encLoopAux]
    rcases henc : enc idx with _ | s <;> simp only [henc]
    · exact le_trans (Nat.le_succ idx) (ih (idx + 1) (a + 1))
    · by_cases hs : s == ""
      · simp only [if_pos hs]
        exact le_trans (Nat.le_succ idx) (ih (idx + 1) (a + 1))
      · simp only [if_neg hs]
        exact Nat.le_succ idx

/-- When every encryption call raises, the inner loop yields no ciphertext. -/
theorem encLoopAux_all_none (enc : Nat → Option String) (h : ∀ j, enc j = none) :
    ∀ (n idx a : Nat), (encLoopAux enc n idx a).1 = none := by
  intro n
  induction n with
  | zero => intro idx a; simp [encLoopAux]
  | succ m ih =>
    intro idx a
    rw [encLoopAux]
    simp only [h idx]
    exact ih (idx + 1) (a + 1)

/-- Events of the encryption phase are only encryption calls and sleeps. -/
theorem runEncryption_mem (cfg : SendConfig) (op : JDict) (st : AttemptState) (e : Event)
    (he : e ∈ (runEncryption cfg op st).2.2) :
    isAttemptStart e = false ∧ isPost e = false ∧ isBackoffSleep e = false := by
  rw [runEncryption] at he
  split at he
  · exact encLoopAux_mem cfg.enc 3 st.encCalls 0 e he
  · simp at he

/-- Every branch of the response handler reports exactly the events it was
given. -/
theorem handle_http_events (cfg : SendConfig) (op : JDict) (st : AttemptState)
    (k : Nat) (evs1 : List Event) (o : HttpOutcome) :
    (handle_http cfg op st k evs1 o).events = evs1 := by
  rcases o with msg | ⟨status, body⟩
  · rw [handle_http]; split <;> rfl
  · rcases body with raw | result <;> rw [handle_http]
    · split
      · split <;> rfl
      · split <;> rfl
    · split
      · split <;> rfl
      · split
        · rfl
        · split <;> rfl

/-- Any retry produced by the response handler sleeps the exponential
backoff of the current attempt, moves to the next attempt, records the
post-encryption oracle index and the post count, and requires the operation
type to be retryable with budget remaining. -/
theorem handle_http_retry (cfg : SendConfig) (op : JDict) (st : AttemptState)
    (k : Nat) (evs1 : List Event) (o : HttpOutcome) (d : ℚ) (st' : AttemptState)
    (evs : List Event) (h : handle_http cfg op st k evs1 o = .retry d st' evs) :
    d = backoff_delay st.attempt ∧ st'.attempt = st.attempt + 1 ∧ st'.encCalls = k ∧
    st'.posts = st.posts + 1 ∧ evs = evs1 ∧
    retryable_operations.contains (opTypeOf op) = true ∧ st.attempt + 1 < cfg.maxRetries := by
  rcases o with msg | ⟨status, body⟩
  · rw [handle_http] at h
    split at h
    · rename_i hcond
      rw [Bool.and_eq_true, decide_eq_true_eq] at hcond
      cases h
      exact ⟨rfl, rfl, rfl, rfl, rfl, hcond.1, hcond.2⟩
    · cases h
  · rcases body with raw | result <;> rw [handle_http] at h
    · split at h
      · split at h
        · rename_i hcond
          rw [Bool.and_eq_true, Bool.and_eq_true, decide_eq_true_eq] at hcond
          cases h
          exact ⟨rfl, rfl, rfl, rfl, rfl, hcond.1.1, hcond.2⟩
        · cases h
      · split at h
        · rename_i hcond
          rw [Bool.and_eq_true, decide_eq_true_eq] at hcond
          cases h
          exact ⟨rfl, rfl, rfl, rfl, rfl, hcond.1, hcond.2⟩
        · cases h
    · split at h
      · split at h
        · rename_i hcond
          rw [Bool.and_eq_true, Bool.and_eq_true, decide_eq_true_eq] at hcond
          cases h
          exact ⟨rfl, rfl, rfl, rfl, rfl, hcond.1.1, hcond.2⟩
        · cases h
      · split at h
        · cases h
        · split at h
          · rename_i hcond
            rw [Bool.and_eq_true, Bool.and_eq_true, Bool.and_eq_true,
              decide_eq_true_eq] at hcond
            cases h
            exact ⟨rfl, rfl, rfl, rfl, rfl, hcond.1.1.1, hcond.2⟩
          · cases h

/-- When the encryption phase yields no ciphertext, the attempt returns the
ENCRYPTION_FAILED dict without any HTTP interaction. -/
theorem attemptStep_done_of_enc_none (cfg : SendConfig) (op : JDict) (st : AttemptState)
    (h : (runEncryption cfg op st).1 = none) :
    attemptStep cfg op st = .done encryption_failed_result
      (Event.attemptStart st.attempt :: (runEncryption cfg op st).2.2) := by
  rw [attemptStep]
  rcases hE : runEncryption cfg op st with ⟨res, k, encEvs⟩
  rw [hE] at h
  simp only at h
  subst h
  rfl

/-- When the encryption phase yields a ciphertext, the attempt posts it and
defers to the response handler. -/
theorem attemptStep_some_eq (cfg : SendConfig) (op : JDict) (st : AttemptState) (c : String)
    (h : (runEncryption cfg op st).1 = some c) :
    attemptStep cfg op st =
      handle_http cfg op st (runEncryption cfg op st).2.1
        (Event.attemptStart st.attempt :: ((runEncryption cfg op st).2.2 ++
          [Event.post st.posts (cfg.gitServerUrl ++ "/api/operations") [("encryptedAuth", c)]]))
        (cfg.http st.posts) := by
  rw [attemptStep]
  rcases hE : runEncryption cfg op st with ⟨res, k, encEvs⟩
  rw [hE] at h
  simp only at h
  subst h
  rfl

/-- The events of one attempt: the attempt start, the encryption events,
and, exactly when encryption produced a ciphertext, one POST of it. -/
theorem attemptStep_events_shape (cfg : SendConfig) (op : JDict) (st : AttemptState) :
    ((runEncryption cfg op st).1 = none ∧
      (attemptStep cfg op st).events =
        Event.attemptStart st.attempt :: (runEncryption cfg op st).2.2) ∨
    (∃ c, (runEncryption cfg op st).1 = some c ∧
      (attemptStep cfg op st).events =
        Event.attemptStart st.attempt :: ((runEncryption cfg op st).2.2 ++
          [Event.post st.posts (cfg.gitServerUrl ++ "/api/operations") [("encryptedAuth", c)]])) := by
  rcases hres : (runEncryption cfg op st).1 with _ | c
  · exact Or.inl ⟨rfl, by rw [attemptStep_done_of_enc_none cfg op st hres]; rfl⟩
  · exact Or.inr ⟨c, rfl, by rw [attemptStep_some_eq cfg op st c hres, handle_http_events]⟩

theorem attemptStep_numAttempts (cfg : SendConfig) (op : JDict) (st : AttemptState) :
    numAttempts (attemptStep cfg op st).events = 1 := by
  have hz : ((runEncryption cfg op st).2.2).countP isAttemptStart = 0 :=
    List.countP_eq_zero.mpr fun e he => by
      simp [(runEncryption_mem cfg op st e he).1]
  rcases attemptStep_events_shape cfg op st with ⟨_, hev⟩ | ⟨c, _, hev⟩ <;>
    simp [hev, numAttempts, List.countP_cons, List.countP_append, hz]

theorem attemptStep_numPosts_le (cfg : SendConfig) (op : JDict) (st : AttemptState) :
    numPosts (attemptStep cfg op st).events ≤ 1 := by
  have hz : ((runEncryption cfg op st).2.2).countP isPost = 0 :=
    List.countP_eq_zero.mpr fun e he => by
      simp [(runEncryption_mem cfg op st e he).2.1]
  rcases attemptStep_events_shape cfg op st with ⟨_, hev⟩ | ⟨c, _, hev⟩ <;>
    simp [hev, numPosts, List.countP_cons, List.countP_append, hz]

theorem attemptStep_backoffs (cfg : SendConfig) (op : JDict) (st : AttemptState) :
    backoffs (attemptStep cfg op st).events = [] := by
  have hz : ((runEncryption cfg op st).2.2).filterMap backoffSel = [] :=
    List.filterMap_eq_nil_iff.mpr fun e he =>
      backoffSel_eq_none (runEncryption_mem cfg op st e he).2.2
  rcases attemptStep_events_shape cfg op st with ⟨_, hev⟩ | ⟨c, _, hev⟩ <;>
    simp [hev, backoffs_eq_filterMap, List.filterMap_cons, List.filterMap_append, hz, backoffSel]

/-- Every POST recorded by one attempt goes to the operations endpoint with
the single encryptedAuth field holding a ciphertext freshly obtained from
the encryption oracle during that attempt. -/
theorem attemptStep_posts (cfg : SendConfig) (op : JDict) (st : AttemptState)
    (pidx : Nat) (url : String) (body : List (String × String))
    (h : Event.post pidx url body ∈ (attemptStep cfg op st).events) :
    pidx = st.posts ∧ url = cfg.gitServerUrl ++ "/api/operations" ∧
    ∃ c j, body = [("encryptedAuth", c)] ∧ st.encCalls ≤ j ∧
      j < encCallsAfter cfg op st ∧ cfg.enc j = some c := by
  rcases attemptStep_events_shape cfg op st with ⟨hres, hev⟩ | ⟨c, hres, hev⟩
  · rw [hev] at h
    rcases List.mem_cons.mp h with h | h
    · cases h
    · have := (runEncryption_mem cfg op st _ h).2.1
      simp [isPost] at this
  · rw [hev] at h
    rcases List.mem_cons.mp h with h | h
    · cases h
    · rcases List.mem_append.mp h with h | h
      · have := (runEncryption_mem cfg op st _ h).2.1
        simp [isPost] at this
      · rw [List.mem_singleton] at h
        injection h with h1 h2 h3
        subst h1; subst h2; subst h3
        refine ⟨rfl, rfl, ?_⟩
        rw [runEncryption] at hres
        by_cases hsr : should_reencrypt op st = true
        · rw [if_pos hsr] at hres
          obtain ⟨j, hj1, hj2, hj3⟩ := encLoopAux_some cfg.enc 3 st.encCalls 0 c hres
          refine ⟨c, j, rfl, hj1, ?_, hj3⟩
          rw [encCallsAfter, runEncryption, if_pos hsr]
          exact hj2
        · rw [if_neg hsr] at hres
          simp at hres

/-- Any retry of the loop sleeps the exponential backoff of the current
attempt, advances the attempt by one, and happens only for a retryable
operation type with budget remaining. -/
theorem attemptStep_retry (cfg : SendConfig) (op : JDict) (st : AttemptState)
    (d : ℚ) (st' : AttemptState) (evs : List Event)
    (h : attemptStep cfg op st = .retry d st' evs) :
    d = backoff_delay st.attempt ∧ st'.attempt = st.attempt + 1 ∧
    st'.encCalls = encCallsAfter cfg op st ∧ st'.posts = st.posts + 1 ∧
    evs = (attemptStep cfg op st).events ∧
    retryable_operations.contains (opTypeOf op) = true ∧ st.attempt + 1 < cfg.maxRetries := by
  rcases hres : (runEncryption cfg op st).1 with _ | c
  · rw [attemptStep_done_of_enc_none cfg op st hres] at h
    cases h
  · rw [attemptStep_some_eq cfg op st c hres] at h
    obtain ⟨h1, h2, h3, h4, h5, h6, h7⟩ := handle_http_retry cfg op st _ _ _ d st' evs h
    refine ⟨h1, h2, h3, h4, ?_, h6, h7⟩
    rw [attemptStep_some_eq cfg op st c hres, handle_http_events]
    exact h5

/-- The loop performs at most fuel iterations. -/
theorem sendLoop_numAttempts_le (cfg : SendConfig) (op : JDict) :
    ∀ (fuel : Nat) (st : AttemptState), numAttempts (sendLoop cfg op fuel st).2 ≤ fuel := by
  intro fuel
  induction fuel with
  | zero => intro st; simp [sendLoop, numAttempts]
  | succ m ih =>
    intro st
    rw [sendLoop]
    rcases hstep : attemptStep cfg op st with ⟨r, evs⟩ | ⟨d, st', evs⟩
    · have h1 := attemptStep_numAttempts cfg op st
      rw [hstep] at h1
      simp only [StepOut.events] at h1
      simp only [h1]
      omega
    · have h1 := attemptStep_numAttempts cfg op st
      rw [hstep] at h1
      simp only [StepOut.events] at h1
      have h2 := ih st'
      simp only [numAttempts, List.countP_append, List.countP_cons] at h1 h2 ⊢
      simp only [isAttemptStart_backoff, Bool.false_eq_true, if_false]
      omega

/-- With fuel 1 the loop performs exactly one iteration. -/
theorem sendLoop_numAttempts_one (cfg : SendConfig) (op : JDict) (st : AttemptState) :
    numAttempts (sendLoop cfg op 1 st).2 = 1 := by
  rw [sendLoop]
  rcases hstep : attemptStep cfg op st with ⟨r, evs⟩ | ⟨d, st', evs⟩
  · have h1 := attemptStep_numAttempts cfg op st
    rw [hstep] at h1
    simpa [StepOut.events] using h1
  · have h1 := attemptStep_numAttempts cfg op st
    rw [hstep] at h1
    simp only [StepOut.events] at h1
    simp only [sendLoop]
    simp only [numAttempts, List.countP_append, List.countP_cons, List.countP_nil] at h1 ⊢
    simp only [isAttemptStart_backoff, Bool.false_eq_true, if_false]
    omega

/-- Each iteration posts at most once, so the trace never has more POSTs
than iterations. -/
theorem sendLoop_numPosts_le (cfg : SendConfig) (op : JDict) :
    ∀ (fuel : Nat) (st : AttemptState),
      numPosts (sendLoop cfg op fuel st).2 ≤ numAttempts (sendLoop cfg op fuel st).2 := by
  intro fuel
  induction fuel with
  | zero => intro st; simp [sendLoop, numPosts, numAttempts]
  | succ m ih =>
    intro st
    rw [sendLoop]
    rcases hstep : attemptStep cfg op st with ⟨r, evs⟩ | ⟨d, st', evs⟩
    · have h1 := attemptStep_numAttempts cfg op st
      have h2 := attemptStep_numPosts_le cfg op st
      rw [hstep] at h1 h2
      simp only [StepOut.events] at h1 h2
      simp only at h1 h2 ⊢
      omega
    · have h1 := attemptStep_numAttempts cfg op st
      have h2 := attemptStep_numPosts_le cfg op st
      rw [hstep] at h1 h2
      simp only [StepOut.events] at h1 h2
      have h3 := ih st'
      simp only [numAttempts, numPosts, List.countP_append, List.countP_cons] at h1 h2 h3 ⊢
      simp only [isAttemptStart_backoff, isPost_backoff, Bool.false_eq_true, if_false]
      omega

/-- The backoff delays of a run are exactly the exponential-backoff values
of the consecutive attempt indices actually retried, which stay inside the
budget. -/
theorem sendLoop_backoffs (cfg : SendConfig) (op : JDict) :
    ∀ (fuel : Nat) (st : AttemptState),
      st.attempt + fuel = cfg.maxRetries → st.attempt < cfg.maxRetries →
      ∃ r, backoffs (sendLoop cfg op fuel st).2 =
          (List.range' st.attempt r).map backoff_delay ∧
        st.attempt + r < cfg.maxRetries := by
  intro fuel
  induction fuel with
  | zero =>
    intro st h1 h2
    omega
  | succ m ih =>
    intro st h1 h2
    rw [sendLoop]
    rcases hstep : attemptStep cfg op st with ⟨r0, evs⟩ | ⟨d, st', evs⟩
    · refine ⟨0, ?_, by omega⟩
      have hb := attemptStep_backoffs cfg op st
      rw [hstep] at hb
      simpa [StepOut.events, List.range'] using hb
    · obtain ⟨hd, ha, _, _, _, _, hlt⟩ := attemptStep_retry cfg op st d st' evs hstep
      have hb : backoffs evs = [] := by
        have hb0 := attemptStep_backoffs cfg op st
        rw [hstep] at hb0
        simpa [StepOut.events] using hb0
      obtain ⟨r', hr1, hr2⟩ := ih st' (by omega) (by omega)
      refine ⟨r' + 1, ?_, by omega⟩
      simp only [backoffs_eq_filterMap, List.filterMap_append, List.filterMap_cons,
        backoffSel_backoff] at hr1 ⊢
      rw [backoffs_eq_filterMap] at hb
      rw [hb]
      rw [List.range'_succ]
      simp only [List.map_cons, List.nil_append]
      rw [hd, hr1]
      rw [ha]

/-- Every POST of a full run goes to the operations endpoint and carries
exactly one encryptedAuth field holding a value of the encryption oracle. -/
theorem sendLoop_posts_shape (cfg : SendConfig) (op : JDict) :
    ∀ (fuel : Nat) (st : AttemptState) (pidx : Nat) (url : String)
      (body : List (String × String)),
      Event.post pidx url body ∈ (sendLoop cfg op fuel st).2 →
      url = cfg.gitServerUrl ++ "/api/operations" ∧
      ∃ c j, body = [("encryptedAuth", c)] ∧ cfg.enc j = some c := by
  intro fuel
  induction fuel with
  | zero => intro st p u b h; simp [sendLoop] at h
  | succ m ih =>
    intro st p u b h
    rw [sendLoop] at h
    rcases hstep : attemptStep cfg op st with ⟨r, evs⟩ | ⟨d, st', evs⟩ <;> rw [hstep] at h
    · simp only at h
      have h2 := attemptStep_posts cfg op st p u b (by rw [hstep]; exact h)
      obtain ⟨_, hurl, c, j, hbody, _, _, hcj⟩ := h2
      exact ⟨hurl, c, j, hbody, hcj⟩
    · simp only at h
      rcases List.mem_append.mp h with h | h
      · have h2 := attemptStep_posts cfg op st p u b (by rw [hstep]; exact h)
        obtain ⟨_, hurl, c, j, hbody, _, _, hcj⟩ := h2
        exact ⟨hurl, c, j, hbody, hcj⟩
      · rcases List.mem_cons.mp h with h | h
        · cases h
        · exact ih st' p u b h

/-- The transient error-code set and the permanent error-code set of the
retry loop are disjoint (retryable side). -/
theorem retryable_not_non_retryable (e : String)
    (h : retryable_error_codes.contains e = true) :
    non_retryable_error_codes.contains e = false := by
  have hm : e ∈ retryable_error_codes := List.mem_of_elem_eq_true h
  fin_cases hm <;> decide

/-- The transient error-code set and the permanent error-code set of the
retry loop are disjoint (non-retryable side). -/
theorem non_retryable_not_retryable (e : String)
    (h : non_retryable_error_codes.contains e = true) :
    retryable_error_codes.contains e = false := by
  have hm : e ∈ non_retryable_error_codes := List.mem_of_elem_eq_true h
  fin_cases hm <;> decide

/-- Every retry budget is at least one attempt. -/
theorem max_retries_for_pos (t : String) : 0 < max_retries_for t := by
  rw [max_retries_for]
  split
  · omega
  · split <;> omega

/-- An operation type outside the retryable set is also outside the
read/list set, so its budget is exactly 1. -/
theorem max_retries_for_eq_one (t : String)
    (h : retryable_operations.contains t = false) : max_retries_for t = 1 := by
  have hrl : (["read", "list"] : List String).contains t = false := by
    rcases hc : (["read", "list"] : List String).contains t with _ | _
    · rfl
    · exfalso
      have hm : t ∈ (["read", "list"] : List String) := List.mem_of_elem_eq_true hc
      fin_cases hm <;> exact absurd h (by decide)
  rw [max_retries_for, hrl, h]
  decide

/-- C6 counterexample: read_file sends an operation whose Operation field is
'read', which is outside the claimed set consisting of create, commit,
branch, checkout, merge and diff. -/
theorem c6_counterexample :
    opTypeOf (read_file_operation "demo-repo" "master" "README.md") = "read" ∧
    claimed_operation_types.contains "read" = false := ⟨rfl, rfl⟩

/-- C6 (amended): every operation dict sent by a public method of GitMCPTool
has an Operation field drawn from the set consisting of create, commit,
branch, checkout, read, revert, history, file-history, diff, show and
merge, and no public method sends any other operation type. -/
theorem c6_amended_operation_types
    (repo target_branch file_path commit_sha from_commit target_commit source_branch
      branch_name repository_name commit_message merge_message agent_name : String)
    (skip take : Nat) (git_files : List (String × String)) :
    public_operation_types.contains (opTypeOf (create_repository_operation repository_name)) = true ∧
    public_operation_types.contains
      (opTypeOf (commit_operation repo target_branch commit_message git_files agent_name)) = true ∧
    public_operation_types.contains
      (opTypeOf (create_branch_operation repo branch_name source_branch agent_name)) = true ∧
    public_operation_types.contains
      (opTypeOf (switch_branch_operation repo branch_name agent_name)) = true ∧
    public_operation_types.contains
      (opTypeOf (read_file_operation repo target_branch file_path)) = true ∧
    public_operation_types.contains
      (opTypeOf (revert_to_commit_operation repo target_branch commit_sha agent_name)) = true ∧
    public_operation_types.contains
      (opTypeOf (get_commit_history_operation repo target_branch skip take agent_name)) = true ∧
    public_operation_types.contains
      (opTypeOf (get_file_history_operation repo file_path target_branch agent_name)) = true ∧
    public_operation_types.contains
      (opTypeOf (compare_commits_operation repo from_commit target_commit agent_name)) = true ∧
    public_operation_types.contains
      (opTypeOf (show_commit_details_operation repo target_commit agent_name)) = true ∧
    public_operation_types.contains
      (opTypeOf (merge_branch_operation repo target_branch source_branch merge_message agent_name)) = true :=
  ⟨rfl, rfl, rfl, rfl, rfl, rfl, rfl, rfl, rfl, rfl, rfl⟩

/-- C9: _check_success holds exactly when the response binds isSuccessful to
a value Python-equal to True (the boolean True, or the integer 1 that Python
equates with it); in particular a response lacking the key is classified as
a failure by every public method, while the retry loop, whose success test
result.get("isSuccessful", True) defaults to True, returns such an HTTP-200
JSON response as a success without retrying. -/
theorem c9_check_success_semantics (d : JDict) :
    (check_success d = true ↔ ∃ v, jget d "isSuccessful" = some v ∧ pyEqTrue v = true) ∧
    (jget d "isSuccessful" = none →
      check_success d = false ∧
      ∀ (cfg : SendConfig) (op : JDict) (st : AttemptState) (c : String),
        (runEncryption cfg op st).1 = some c →
        cfg.http st.posts = .resp 200 (.json d) →
        ∃ evs, attemptStep cfg op st = .done d evs) := by
  constructor
  · rcases hv : jget d "isSuccessful" with _ | v <;> simp [check_success, hv]
  · intro hmiss
    refine ⟨by simp [check_success, hmiss], ?_⟩
    intro cfg op st c henc hhttp
    refine ⟨Event.attemptStart st.attempt :: ((runEncryption cfg op st).2.2 ++
      [Event.post st.posts (cfg.gitServerUrl ++ "/api/operations") [("encryptedAuth", c)]]), ?_⟩
    rw [attemptStep_some_eq cfg op st c henc, hhttp]
    simp [handle_http, hmiss, pyTruthy]

/-- C9 witness: the empty response dict lacks isSuccessful, is a failure for
_check_success, and is returned unchanged and without a retry by the loop. -/
theorem c9_witness :
    check_success [] = false ∧
    ∃ evs,
      attemptStep ⟨"u", 1, fun _ => some "CT", fun _ => .resp 200 (.json [])⟩
        [] ⟨0, 0, 0, false, 0⟩ = .done [] evs :=
  ⟨((c9_check_success_semantics []).2 rfl).1,
   ((c9_check_success_semantics []).2 rfl).2
     ⟨"u", 1, fun _ => some "CT", fun _ => .resp 200 (.json [])⟩
     [] ⟨0, 0, 0, false, 0⟩ "CT" rfl rfl⟩

/-- C10: switch_branch sets current_branch to the requested branch exactly
when the response passes _check_success; on a failed response or an
exception the whole state, current_branch included, is unchanged, and
current_repository is never modified. -/
theorem c10_switch_branch_state (st : GitToolState) (branch_name : String)
    (repository : Option String) (timestamp : String) (outcome : Except String JDict) :
    (switch_branch st branch_name repository timestamp outcome).1.current_repository
        = st.current_repository ∧
    (switch_branch st branch_name repository timestamp outcome).1.current_branch
        = (if outcome_success outcome then branch_name else st.current_branch) ∧
    (outcome_success outcome = false →
      (switch_branch st branch_name repository timestamp outcome).1 = st) := by
  rcases outcome with e | result
  · simp [switch_branch, outcome_success]
  · by_cases h : check_success result = true
    · simp [switch_branch, outcome_success, h]
    · rw [Bool.not_eq_true] at h
      simp [switch_branch, outcome_success, h]

/-- C10 witness: a failed response leaves the tool state untouched. -/
theorem c10_witness :
    outcome_success (Except.ok ([] : JDict) : Except String JDict) = false ∧
    (switch_branch ⟨"repo", "master", []⟩ "dev" none "t"
        (Except.ok ([] : JDict))).1 = ⟨"repo", "master", []⟩ :=
  ⟨rfl,
   (c10_switch_branch_state ⟨"repo", "master", []⟩ "dev" none "t"
     (Except.ok ([] : JDict))).2.2 rfl⟩

/-- C8: when commit_files proceeds without an upload session, a file whose
UTF-8 content exceeds 51200 bytes is sent with its content silently cut to
the first 51200 characters, yet a successful server response still yields a
successful GitCommitResult listing that file in files_changed, and the
result carries no trace of the truncation: it depends only on the file
paths, not on the contents. -/
theorem c8_silent_truncation (files : List GitFileOperation) (f : GitFileOperation)
    (hmem : f ∈ files) (hbig : content_size f > small_file_limit)
    (server_result : JDict) (hsucc : check_success server_result = true) :
    (f.path, (f.content.getD "").take small_file_limit) ∈ prepare_inline_files files ∧
    (commit_files_result files server_result).success = true ∧
    f.path ∈ (commit_files_result files server_result).files_changed.getD [] ∧
    ∀ files₂ : List GitFileOperation,
      files₂.map GitFileOperation.path = files.map GitFileOperation.path →
      commit_files_result files₂ server_result = commit_files_result files server_result := by
  obtain ⟨c, hc⟩ : ∃ c, f.content = some c := by
    rcases hcc : f.content with _ | c
    · exfalso
      rw [content_size, hcc] at hbig
      simp at hbig
    · exact ⟨c, rfl⟩
  refine ⟨?_, ?_, ?_, ?_⟩
  · have heq : inline_git_file f = (f.path, (f.content.getD "").take small_file_limit) := by
      rw [inline_git_file, if_pos hbig, hc]
      simp
    rw [← heq]
    exact List.mem_map_of_mem inline_git_file hmem
  · simp [commit_files_result, hsucc]
  · simp only [commit_files_result, hsucc, if_true, Option.getD_some]
    exact List.mem_map_of_mem GitFileOperation.path hmem
  · intro files₂ hpaths
    simp [commit_files_result, hsucc, hpaths]

/-- C1: when an attempt got an HTTP-200 response parsing as JSON that fails
the success test, the loop retries exactly when the operation type is
retryable, the errorCode is in the transient set, and budget remains; in
every other case, and in particular for every errorCode of the permanent
set, that failed response is returned immediately. -/
theorem c1_retry_iff_retryable (cfg : SendConfig) (op : JDict) (st : AttemptState)
    (result : JDict) (c : String)
    (henc : (runEncryption cfg op st).1 = some c)
    (hhttp : cfg.http st.posts = .resp 200 (.json result))
    (hfail : pyTruthy ((jget result "isSuccessful").getD (.bool true)) = false) :
    ((retryable_operations.contains (opTypeOf op) = true ∧
        retryable_error_codes.contains (errCodeOf result) = true ∧
        st.attempt + 1 < cfg.maxRetries) →
      ∃ d st' evs, attemptStep cfg op st = .retry d st' evs) ∧
    (¬(retryable_operations.contains (opTypeOf op) = true ∧
        retryable_error_codes.contains (errCodeOf result) = true ∧
        st.attempt + 1 < cfg.maxRetries) →
      ∃ evs, attemptStep cfg op st = .done result evs) ∧
    (non_retryable_error_codes.contains (errCodeOf result) = true →
      ∃ evs, attemptStep cfg op st = .done result evs) := by
  have hstep : attemptStep cfg op st =
      (if (retryable_operations.contains (opTypeOf op)
            && retryable_error_codes.contains (errCodeOf result)
            && !(non_retryable_error_codes.contains (errCodeOf result))
            && decide (st.attempt + 1 < cfg.maxRetries)) = true then
        StepOut.retry (backoff_delay st.attempt)
          ⟨st.attempt + 1, (runEncryption cfg op st).2.1, st.posts + 1,
           errCodeOf result == "DECRYPTION_FAILED",
           if errCodeOf result == "DECRYPTION_FAILED" then st.consecutiveFailures + 1 else 0⟩
          (Event.attemptStart st.attempt :: ((runEncryption cfg op st).2.2 ++
            [Event.post st.posts (cfg.gitServerUrl ++ "/api/operations") [("encryptedAuth", c)]]))
      else StepOut.done result
        (Event.attemptStart st.attempt :: ((runEncryption cfg op st).2.2 ++
          [Event.post st.posts (cfg.gitServerUrl ++ "/api/operations") [("encryptedAuth", c)]]))) := by
    rw [attemptStep_some_eq cfg op st c henc, hhttp, handle_http]
    simp only [bne_self_eq_false, Bool.false_eq_true, if_false, hfail]
  refine ⟨?_, ?_, ?_⟩
  · rintro ⟨h1, h2, h3⟩
    have hC : non_retryable_error_codes.contains (errCodeOf result) = false :=
      retryable_not_non_retryable _ h2
    rw [hstep, if_pos]
    · exact ⟨_, _, _, rfl⟩
    · rw [h1, h2, hC]
      simp [h3]
  · intro hno
    rw [hstep, if_neg]
    · exact ⟨_, rfl⟩
    · intro hcond
      simp only [Bool.and_eq_true, decide_eq_true_eq] at hcond
      exact hno ⟨hcond.1.1.1, hcond.1.1.2, hcond.2⟩
  · intro hC
    have hB : retryable_error_codes.contains (errCodeOf result) = false :=
      non_retryable_not_retryable _ hC
    rw [hstep, if_neg]
    · exact ⟨_, rfl⟩
    · intro hcond
      simp only [Bool.and_eq_true, decide_eq_true_eq] at hcond
      rw [hB] at hcond
      exact absurd hcond.1.1.2 (by simp)

/-- C1 witness: a failed commit response with the transient code TIMEOUT and
budget remaining is retried. -/
theorem c1_witness :
    ∃ d st' evs,
      attemptStep
        ⟨"u", 10, fun _ => some "CT",
         fun _ => .resp 200 (.json [("isSuccessful", JVal.bool false),
                                    ("errorCode", JVal.str "TIMEOUT")])⟩
        [("Operation", JVal.str "commit")] ⟨0, 0, 0, false, 0⟩ = .retry d st' evs :=
  (c1_retry_iff_retryable
    ⟨"u", 10, fun _ => some "CT",
     fun _ => .resp 200 (.json [("isSuccessful", JVal.bool false),
                                ("errorCode", JVal.str "TIMEOUT")])⟩
    [("Operation", JVal.str "commit")] ⟨0, 0, 0, false, 0⟩
    [("isSuccessful", JVal.bool false), ("errorCode", JVal.str "TIMEOUT")]
    "CT" rfl rfl rfl).1 ⟨by decide, by decide, by decide⟩

/-- C2: the sequence of backoff sleeps of a whole call is exactly
min(1.0 * 2 ^ n, 60.0) seconds for the consecutive attempt indices
n = 0, 1, ..., and every slept-for attempt index lies inside the operation's
retry budget. -/
theorem c2_exponential_backoff (gitServerUrl : String) (enc : Nat → Option String)
    (http : Nat → HttpOutcome) (op : JDict) :
    ∃ r, backoffs (send_encrypted_git_operation gitServerUrl enc http op).2 =
        (List.range r).map (fun n => min ((1 : ℚ) * 2 ^ n) 60) ∧
      r < max_retries_for (opTypeOf op) := by
  obtain ⟨r, hr1, hr2⟩ :=
    sendLoop_backoffs ⟨gitServerUrl, max_retries_for (opTypeOf op), enc, http⟩ op
      (max_retries_for (opTypeOf op)) ⟨0, 0, 0, false, 0⟩ (by simp)
      (max_retries_for_pos (opTypeOf op))
  refine ⟨r, ?_, by simpa using hr2⟩
  rw [send_encrypted_git_operation, hr1, List.range_eq_range']
  rfl

/-- C3: a call makes at most as many POSTs as attempts, and the number of
attempts is at most 3 for read and list, at most 10 for commit, create,
branch and checkout, and exactly 1 for every other operation type. -/
theorem c3_retry_budgets (gitServerUrl : String) (enc : Nat → Option String)
    (http : Nat → HttpOutcome) (op : JDict) :
    numPosts (send_encrypted_git_operation gitServerUrl enc http op).2 ≤
      numAttempts (send_encrypted_git_operation gitServerUrl enc http op).2 ∧
    ((opTypeOf op = "read" ∨ opTypeOf op = "list") →
      numAttempts (send_encrypted_git_operation gitServerUrl enc http op).2 ≤ 3) ∧
    ((opTypeOf op = "commit" ∨ opTypeOf op = "create" ∨ opTypeOf op = "branch" ∨
        opTypeOf op = "checkout") →
      numAttempts (send_encrypted_git_operation gitServerUrl enc http op).2 ≤ 10) ∧
    (retryable_operations.contains (opTypeOf op) = false →
      numAttempts (send_encrypted_git_operation gitServerUrl enc http op).2 = 1) := by
  refine ⟨?_, ?_, ?_, ?_⟩
  · rw [send_encrypted_git_operation]
    exact sendLoop_numPosts_le _ op _ _
  · intro h
    have hmr : max_retries_for (opTypeOf op) = 3 := by
      rcases h with h | h <;> rw [h] <;> rfl
    rw [send_encrypted_git_operation, hmr]
    exact sendLoop_numAttempts_le _ op 3 _
  · intro h
    have hmr : max_retries_for (opTypeOf op) = 10 := by
      rcases h with h | h | h | h <;> rw [h] <;> rfl
    rw [send_encrypted_git_operation, hmr]
    exact sendLoop_numAttempts_le _ op 10 _
  · intro h
    rw [send_encrypted_git_operation, max_retries_for_eq_one _ h]
    exact sendLoop_numAttempts_one _ op _

/-- C3 witness: a merge operation is outside the retryable set and performs
exactly one attempt. -/
theorem c3_witness :
    retryable_operations.contains (opTypeOf [("Operation", JVal.str "merge")]) = false ∧
    numAttempts (send_encrypted_git_operation "u" (fun _ => some "CT")
        (fun _ => .resp 200 (.json [("isSuccessful", JVal.bool true)]))
        [("Operation", JVal.str "merge")]).2 = 1 :=
  ⟨by decide,
   (c3_retry_budgets "u" (fun _ => some "CT")
     (fun _ => .resp 200 (.json [("isSuccessful", JVal.bool true)]))
     [("Operation", JVal.str "merge")]).2.2.2 (by decide)⟩

/-- On a retry after a failed HTTP-200 JSON response, the successor state's
last_decryption_failed flag is exactly the test of the response's errorCode
against DECRYPTION_FAILED. -/
theorem attemptStep_retry_fail200 (cfg : SendConfig) (op : JDict) (st : AttemptState)
    (result : JDict) (c : String) (d : ℚ) (st' : AttemptState) (evs : List Event)
    (henc : (runEncryption cfg op st).1 = some c)
    (hhttp : cfg.http st.posts = .resp 200 (.json result))
    (hstep : attemptStep cfg op st = .retry d st' evs) :
    st'.lastDecryptionFailed = (errCodeOf result == "DECRYPTION_FAILED") := by
  rw [attemptStep_some_eq cfg op st c henc, hhttp, handle_http] at hstep
  simp only [bne_self_eq_false, Bool.false_eq_true, if_false] at hstep
  by_cases hsf : pyTruthy ((jget result "isSuccessful").getD (.bool true)) = true
  · rw [if_pos hsf] at hstep
    cases hstep
  · rw [Bool.not_eq_true] at hsf
    rw [if_neg (by simp [hsf])] at hstep
    split at hstep
    · cases hstep
      rfl
    · cases hstep

/-- C4: after an attempt fails with DECRYPTION_FAILED and a retry happens,
the successor state has the re-encryption flag set (so the next attempt
encrypts afresh), the encryption-call counter has strictly advanced past
every call of the failed attempt, every ciphertext posted by the failed
attempt came from a call below that counter, and every ciphertext the next
attempt posts comes from a call at or above it: the failed ciphertext's call
is never reused. -/
theorem c4_reencrypt_after_decryption_failed (cfg : SendConfig) (op : JDict)
    (st st' : AttemptState) (d : ℚ) (evs : List Event) (result : JDict)
    (hstep : attemptStep cfg op st = .retry d st' evs)
    (hhttp : cfg.http st.posts = .resp 200 (.json result))
    (hcode : errCodeOf result = "DECRYPTION_FAILED") :
    st'.lastDecryptionFailed = true ∧
    should_reencrypt op st' = true ∧
    st.encCalls < st'.encCalls ∧
    (∀ (pidx : Nat) (url : String) (body : List (String × String)),
      Event.post pidx url body ∈ evs →
      ∃ c i, body = [("encryptedAuth", c)] ∧ st.encCalls ≤ i ∧ i < st'.encCalls ∧
        cfg.enc i = some c) ∧
    (∀ (pidx : Nat) (url : String) (body : List (String × String)),
      Event.post pidx url body ∈ (attemptStep cfg op st').events →
      ∃ c j, body = [("encryptedAuth", c)] ∧ st'.encCalls ≤ j ∧ cfg.enc j = some c) := by
  rcases hres : (runEncryption cfg op st).1 with _ | c
  · rw [attemptStep_done_of_enc_none cfg op st hres] at hstep
    cases hstep
  · obtain ⟨hd, ha, hk, hp, hevs, hro, hb⟩ := attemptStep_retry cfg op st d st' evs hstep
    have hdf : st'.lastDecryptionFailed = true := by
      rw [attemptStep_retry_fail200 cfg op st result c d st' evs hres hhttp hstep, hcode]
      decide
    refine ⟨hdf, ?_, ?_, ?_, ?_⟩
    · rw [should_reencrypt, hdf]
      simp
    · rw [hk, encCallsAfter, runEncryption]
      rw [runEncryption] at hres
      by_cases hsr : should_reencrypt op st = true
      · rw [if_pos hsr] at hres ⊢
        obtain ⟨j, hj1, hj2, _⟩ := encLoopAux_some cfg.enc 3 st.encCalls 0 c hres
        omega
      · rw [if_neg hsr] at hres
        simp at hres
    · intro pidx url body hmem
      rw [hevs] at hmem
      obtain ⟨_, _, c2, j, hbody, hj1, hj2, hj3⟩ := attemptStep_posts cfg op st pidx url body hmem
      refine ⟨c2, j, hbody, hj1, ?_, hj3⟩
      rw [hk]
      exact hj2
    · intro pidx url body hmem
      obtain ⟨_, _, c2, j, hbody, hj1, _, hj3⟩ := attemptStep_posts cfg op st' pidx url body hmem
      exact ⟨c2, j, hbody, hj1, hj3⟩

/-- C4 witness: a commit attempt failing with DECRYPTION_FAILED retries into
a state whose re-encryption flag is set. -/
theorem c4_witness :
    attemptStep
        ⟨"u", 10, fun _ => some "CT",
         fun _ => .resp 200 (.json [("isSuccessful", JVal.bool false),
                                    ("errorCode", JVal.str "DECRYPTION_FAILED")])⟩
        [("Operation", JVal.str "commit")] ⟨0, 0, 0, false, 0⟩ =
      .retry (backoff_delay 0) ⟨1, 1, 1, true, 1⟩
        [Event.attemptStart 0, Event.encCall 0 (some "CT"),
         Event.post 0 ("u" ++ "/api/operations") [("encryptedAuth", "CT")]] ∧
    (⟨1, 1, 1, true, 1⟩ : AttemptState).lastDecryptionFailed = true ∧
    should_reencrypt [("Operation", JVal.str "commit")] ⟨1, 1, 1, true, 1⟩ = true := by
  have hstep : attemptStep
      ⟨"u", 10, fun _ => some "CT",
       fun _ => .resp 200 (.json [("isSuccessful", JVal.bool false),
                                  ("errorCode", JVal.str "DECRYPTION_FAILED")])⟩
      [("Operation", JVal.str "commit")] ⟨0, 0, 0, false, 0⟩ =
      .retry (backoff_delay 0) ⟨1, 1, 1, true, 1⟩
        [Event.attemptStart 0, Event.encCall 0 (some "CT"),
         Event.post 0 ("u" ++ "/api/operations") [("encryptedAuth", "CT")]] := rfl
  have h4 := c4_reencrypt_after_decryption_failed _ _ _ _ _ _
    [("isSuccessful", JVal.bool false), ("errorCode", JVal.str "DECRYPTION_FAILED")]
    hstep rfl rfl
  exact ⟨hstep, h4.1, h4.2.1⟩

/-- A probe failing the usability test yields no ciphertext. -/
theorem trySessionEncrypt_none_of_unusable (s : Option (String → String → EncOutcome))
    (msg dest : String) (h : session_usable s msg dest = false) :
    trySessionEncrypt s msg dest = none := by
  rcases s with _ | f
  · rfl
  · rw [trySessionEncrypt]
    split
    · rfl
    · rw [session_usable] at h
      rcases hf : f msg dest with _ | r
      · simp only [hf]
      · simp only [hf] at h ⊢
        have hreq : (r == "") = true := by simpa using h
        rw [if_pos hreq]

/-- A successful probe is a session call returning this non-empty
ciphertext. -/
theorem trySessionEncrypt_some (s : Option (String → String → EncOutcome)) (msg dest c : String)
    (h : trySessionEncrypt s msg dest = some c) :
    session_outputs s msg dest c ∧ c ≠ "" := by
  rcases s with _ | f
  · simp [trySessionEncrypt] at h
  · rw [trySessionEncrypt] at h
    split at h
    · cases h
    · rcases hf : f msg dest with _ | r <;> simp only [hf] at h
      · cases h
      · split at h
        · cases h
        · rename_i hr
          cases h
          refine ⟨⟨f, rfl, hf⟩, ?_⟩
          intro hc
          subst hc
          exact hr rfl

/-- A ciphertext returned by _encrypt_git_operation is the non-empty output
of some session on the serialized operation. -/
theorem encrypt_ok_outputs (agent : Agent) (dest : String) (operation : JDict) (c : String)
    (h : encrypt_git_operation agent dest operation = .ok c) :
    agent_session_outputs agent (JVal.serialize (.obj operation)) dest c ∧ c ≠ "" := by
  simp only [encrypt_git_operation] at h
  rcases h1 : trySessionEncrypt agent.hexaeightClrSession (JVal.serialize (.obj operation)) dest
      with _ | r1 <;> simp only [h1] at h
  · rcases h2 : trySessionEncrypt agent.clrSession (JVal.serialize (.obj operation)) dest
        with _ | r2 <;> simp only [h2] at h
    · rcases h3 : trySessionEncrypt agent.directSession (JVal.serialize (.obj operation)) dest
          with _ | r3 <;> simp only [h3] at h
      · rcases h4 : trySessionEncrypt agent.hexaeightSession (JVal.serialize (.obj operation)) dest
            with _ | r4 <;> simp only [h4] at h
        · rcases h5 : trySessionEncrypt agent.configSession (JVal.serialize (.obj operation)) dest
              with _ | r5 <;> simp only [h5] at h
          · cases h
          · cases h
            obtain ⟨ho, hn⟩ := trySessionEncrypt_some _ _ _ _ h5
            exact ⟨Or.inr (Or.inr (Or.inr (Or.inr ho))), hn⟩
        · cases h
          obtain ⟨ho, hn⟩ := trySessionEncrypt_some _ _ _ _ h4
          exact ⟨Or.inr (Or.inr (Or.inr (Or.inl ho))), hn⟩
      · cases h
        obtain ⟨ho, hn⟩ := trySessionEncrypt_some _ _ _ _ h3
        exact ⟨Or.inr (Or.inr (Or.inl ho)), hn⟩
    · cases h
      obtain ⟨ho, hn⟩ := trySessionEncrypt_some _ _ _ _ h2
      exact ⟨Or.inr (Or.inl ho), hn⟩
  · cases h
    obtain ⟨ho, hn⟩ := trySessionEncrypt_some _ _ _ _ h1
    exact ⟨Or.inl ho, hn⟩

/-- C5: every HTTP request body the client sends is a POST to
git_server_url/api/operations whose only payload field is encryptedAuth,
holding the non-empty ciphertext that _encrypt_git_operation produced by
encrypting the json.dumps serialization of the operation to the git server
agent through one of the agent's sessions; no other value, in particular
not the plaintext JSON itself, is placed in the body by the client. -/
theorem c5_encrypted_post_body (agent : Agent) (gitServerAgentName gitServerUrl : String)
    (http : Nat → HttpOutcome) (operation : JDict) (pidx : Nat) (url : String)
    (body : List (String × String))
    (hmem : Event.post pidx url body ∈
      (send_with_agent agent gitServerAgentName gitServerUrl http operation).2) :
    url = gitServerUrl ++ "/api/operations" ∧
    ∃ c, body = [("encryptedAuth", c)] ∧ c ≠ "" ∧
      encrypt_git_operation agent gitServerAgentName operation = .ok c ∧
      agent_session_outputs agent (JVal.serialize (.obj operation)) gitServerAgentName c ∧
      ∀ kv ∈ body, kv.1 = "encryptedAuth" ∧ kv.2 = c := by
  rw [send_with_agent, send_encrypted_git_operation] at hmem
  obtain ⟨hurl, c, j, hbody, hcj⟩ :=
    sendLoop_posts_shape _ operation _ _ pidx url body hmem
  have hok : encrypt_git_operation agent gitServerAgentName operation = .ok c := by
    simp only [agentEncOracle] at hcj
    rcases he : encrypt_git_operation agent gitServerAgentName operation with e | r <;>
      rw [he] at hcj
    · cases hcj
    · cases hcj
      rfl
  obtain ⟨ho, hn⟩ := encrypt_ok_outputs agent gitServerAgentName operation c hok
  refine ⟨hurl, c, hbody, hn, hok, ho, ?_⟩
  intro kv hkv
  rw [hbody] at hkv
  rcases List.mem_singleton.mp hkv with rfl
  exact ⟨rfl, rfl⟩

/-- C5 witness: a concrete run posts exactly the session's ciphertext under
the single encryptedAuth field. -/
theorem c5_witness :
    Event.post 0 ("u" ++ "/api/operations") [("encryptedAuth", "CIPHER")] ∈
      (send_with_agent ⟨some fun _ _ => .returns "CIPHER", none, none, none, none⟩ "srv" "u"
        (fun _ => .resp 200 (.json [("isSuccessful", JVal.bool true)]))
        [("Operation", JVal.str "merge")]).2 ∧
    ∃ c, [(("encryptedAuth" : String), ("CIPHER" : String))] = [("encryptedAuth", c)] ∧ c ≠ "" ∧
      encrypt_git_operation ⟨some fun _ _ => .returns "CIPHER", none, none, none, none⟩ "srv"
        [("Operation", JVal.str "merge")] = .ok c ∧
      agent_session_outputs ⟨some fun _ _ => .returns "CIPHER", none, none, none, none⟩
        (JVal.serialize (.obj [("Operation", JVal.str "merge")])) "srv" c ∧
      ∀ kv ∈ [(("encryptedAuth" : String), ("CIPHER" : String))],
        kv.1 = "encryptedAuth" ∧ kv.2 = c := by
  have hser : JVal.serialize (.obj [("Operation", JVal.str "merge")]) =
      "\x7b\"Operation\": \"merge\"\x7d" := by
    simp only [JVal.serialize, serializeFields]
    rfl
  have henc : encrypt_git_operation
      ⟨some fun _ _ => .returns "CIPHER", none, none, none, none⟩ "srv"
      [("Operation", JVal.str "merge")] = .ok "CIPHER" := by
    simp only [encrypt_git_operation, hser]
    rfl
  have hfun : agentEncOracle ⟨some fun _ _ => .returns "CIPHER", none, none, none, none⟩ "srv"
      [("Operation", JVal.str "merge")] = fun _ => some "CIPHER" :=
    funext fun j => by simp only [agentEncOracle, henc]
  have hmem : Event.post 0 ("u" ++ "/api/operations") [("encryptedAuth", "CIPHER")] ∈
      (send_with_agent ⟨some fun _ _ => .returns "CIPHER", none, none, none, none⟩ "srv" "u"
        (fun _ => .resp 200 (.json [("isSuccessful", JVal.bool true)]))
        [("Operation", JVal.str "merge")]).2 := by
    rw [send_with_agent, send_encrypted_git_operation, hfun]
    decide
  exact ⟨hmem,
    (c5_encrypted_post_body ⟨some fun _ _ => .returns "CIPHER", none, none, none, none⟩
      "srv" "u" (fun _ => .resp 200 (.json [("isSuccessful", JVal.bool true)]))
      [("Operation", JVal.str "merge")] 0 _ _ hmem).2⟩

/-- When every encryption call raises, a whole call returns the
ENCRYPTION_FAILED dict and issues no HTTP POST at all. -/
theorem send_enc_none (gitServerUrl : String) (http : Nat → HttpOutcome) (op : JDict)
    (enc : Nat → Option String) (henc : ∀ j, enc j = none) :
    (send_encrypted_git_operation gitServerUrl enc http op).1 = encryption_failed_result ∧
    numPosts (send_encrypted_git_operation gitServerUrl enc http op).2 = 0 := by
  rw [send_encrypted_git_operation]
  rcases hm : max_retries_for (opTypeOf op) with _ | m
  · exact absurd hm (by have := max_retries_for_pos (opTypeOf op); omega)
  · rw [sendLoop]
    have hres : (runEncryption ⟨gitServerUrl, m + 1, enc, http⟩ op ⟨0, 0, 0, false, 0⟩).1
        = none := by
      rw [runEncryption]
      split
      · exact encLoopAux_all_none enc henc 3 0 0
      · rfl
    rw [attemptStep_done_of_enc_none _ op _ hres]
    have hz : ((runEncryption ⟨gitServerUrl, m + 1, enc, http⟩ op
        ⟨0, 0, 0, false, 0⟩).2.2).countP isPost = 0 :=
      List.countP_eq_zero.mpr fun e he => by
        simp [(runEncryption_mem _ op _ e he).2.1]
    constructor
    · rfl
    · show numPosts (Event.attemptStart 0 ::
        (runEncryption ⟨gitServerUrl, m + 1, enc, http⟩ op ⟨0, 0, 0, false, 0⟩).2.2) = 0
      simp [numPosts, List.countP_cons, hz]

/-- C7: when no session-access pattern of the agent yields a usable
EncryptTextMessageToDestination result for the serialized operation,
_encrypt_git_operation raises, and _send_encrypted_git_operation returns
the dict with isSuccessful false and errorCode ENCRYPTION_FAILED without
issuing a single HTTP request. -/
theorem c7_encryption_failure_no_http (agent : Agent) (gitServerAgentName gitServerUrl : String)
    (http : Nat → HttpOutcome) (operation : JDict)
    (hno : no_usable_session agent (JVal.serialize (.obj operation)) gitServerAgentName = true) :
    (∃ e, encrypt_git_operation agent gitServerAgentName operation = .error e) ∧
    (send_with_agent agent gitServerAgentName gitServerUrl http operation).1 =
      encryption_failed_result ∧
    check_success (send_with_agent agent gitServerAgentName gitServerUrl http operation).1
      = false ∧
    jget (send_with_agent agent gitServerAgentName gitServerUrl http operation).1 "errorCode"
      = some (.str "ENCRYPTION_FAILED") ∧
    numPosts (send_with_agent agent gitServerAgentName gitServerUrl http operation).2 = 0 := by
  rw [no_usable_session] at hno
  simp only [Bool.and_eq_true, Bool.not_eq_true'] at hno
  obtain ⟨⟨⟨⟨h1, h2⟩, h3⟩, h4⟩, h5⟩ := hno
  have herr : encrypt_git_operation agent gitServerAgentName operation =
      .error "No working encryption session found" := by
    simp only [encrypt_git_operation]
    rw [trySessionEncrypt_none_of_unusable _ _ _ h1,
        trySessionEncrypt_none_of_unusable _ _ _ h2,
        trySessionEncrypt_none_of_unusable _ _ _ h3,
        trySessionEncrypt_none_of_unusable _ _ _ h4,
        trySessionEncrypt_none_of_unusable _ _ _ h5]
  have hfun : ∀ j, agentEncOracle agent gitServerAgentName operation j = none := by
    intro j
    simp only [agentEncOracle, herr]
  obtain ⟨hs1, hs2⟩ := send_enc_none gitServerUrl http operation
    (agentEncOracle agent gitServerAgentName operation) hfun
  refine ⟨⟨_, herr⟩, ?_, ?_, ?_, ?_⟩ <;> rw [send_with_agent]
  · exact hs1
  · rw [hs1]
    rfl
  · rw [hs1]
    rfl
  · exact hs2

/-- C7 witness: an agent exposing no session at all produces the
ENCRYPTION_FAILED result. -/
theorem c7_witness :
    no_usable_session ⟨none, none, none, none, none⟩
      (JVal.serialize (.obj [("Operation", JVal.str "commit")])) "srv" = true ∧
    (send_with_agent ⟨none, none, none, none, none⟩ "srv" "u" (fun _ => .exn "down")
        [("Operation", JVal.str "commit")]).1 = encryption_failed_result :=
  ⟨rfl,
   (c7_encryption_failure_no_http ⟨none, none, none, none, none⟩ "srv" "u"
     (fun _ => .exn "down") [("Operation", JVal.str "commit")] rfl).2.1⟩

/-- C8 witness: a single 51201-byte ASCII file is over the limit and a
successful response reports a successful commit. -/
theorem c8_witness :
    content_size ⟨"big.txt", some (String.mk (List.replicate 51201 'a')), "modify", false, 0⟩
        > small_file_limit ∧
    (commit_files_result
        [⟨"big.txt", some (String.mk (List.replicate 51201 'a')), "modify", false, 0⟩]
        [("isSuccessful", JVal.bool true)]).success = true := by
  have hbig : content_size
      ⟨"big.txt", some (String.mk (List.replicate 51201 'a')), "modify", false, 0⟩
      > small_file_limit := by
    have h1 : ('a').utf8Size = 1 := rfl
    simp only [content_size, utf8Length, small_file_limit, List.map_replicate, h1,
      List.sum_replicate, smul_eq_mul]
    omega
  exact ⟨hbig,
    (c8_silent_truncation _ _ (List.mem_singleton.mpr rfl) hbig
      [("isSuccessful", JVal.bool true)] rfl).2.1⟩

end HexaEightGit
